import Mathlib

/-!
Verification of the chat-attachment codec and parser
(`src/gateway/chat-attachments.ts`).

The implementation file is not part of the provided sources (only its test
suite `chat-attachments.test.ts` is), so every operation below is modelled
from the specification and cross-checked against the expectations of the
test suite: the data model (`ChatAttachment`, `ParsedImage`, `ParseResult`),
the base64 validator, the size guard, the magic-byte mime sniffer, the
synchronous encode path `buildMessageWithAttachments` and the decode path
`parseMessageWithAttachments`. Warnings emitted through the injected `log`
capability are modelled as an explicitly returned list of strings; the
asynchronous decode path is modelled as an `Except` value (rejection is
`Except.error`).
-/

/-- Modelled from the spec: the tag field of a `ChatAttachment`,
one of `image` or `file`. -/
inductive AttachmentType where
  | image
  | file
deriving DecidableEq

/-- Modelled from the spec: an input attachment descriptor with a type tag,
an optional declared mime type, a display file name and base64 content
(optionally prefixed with a data-reference header). -/
structure ChatAttachment where
  type : AttachmentType
  mimeType : Option String
  fileName : String
  content : String
deriving DecidableEq

/-- Modelled from the spec: a normalized accepted payload. -/
structure ParsedImage where
  mimeType : String
  data : String
deriving DecidableEq

/-- Modelled from the spec: the decode-path result, the unchanged input text
plus the ordered accepted payloads. -/
structure ParseResult where
  message : String
  images : List ParsedImage
deriving DecidableEq

/-- Modelled from the spec: default decoded-size ceiling of 5,000,000 bytes. -/
def defaultMaxBytes : Nat := 5000000

/-- Membership in the base64 alphabet. -/
def base64Char (c : Char) : Bool :=
  decide ('A' ≤ c ∧ c ≤ 'Z') || decide ('a' ≤ c ∧ c ≤ 'z') ||
    decide ('0' ≤ c ∧ c ≤ '9') || c == '+' || c == '/'

/-- A run made only of padding: at most two equals signs. -/
def padOnly (l : List Char) : Bool :=
  l.all (fun c => c == '=') && decide (l.length ≤ 2)

/-- Modelled from the spec: the Base64 Validator over the character list —
only alphabet characters, then correct padding. -/
def isValidBase64L : List Char → Bool
  | [] => true
  | c :: cs => if base64Char c then isValidBase64L cs else padOnly (c :: cs)

/-- Modelled from the spec: the Base64 Validator on strings. -/
def isValidBase64 (s : String) : Bool :=
  isValidBase64L s.data

/-- Modelled from the spec: decoded byte length of a base64 string, the
standard expansion ratio adjusted for padding characters. -/
def decodedByteLength (s : String) : Nat :=
  ((s.data.filter (fun c => !(c == '='))).length * 3) / 4

/-- Numeric value of one base64 alphabet character. -/
def base64Val (c : Char) : Option Nat :=
  if 'A' ≤ c ∧ c ≤ 'Z' then some (c.toNat - 65)
  else if 'a' ≤ c ∧ c ≤ 'z' then some (c.toNat - 97 + 26)
  else if '0' ≤ c ∧ c ≤ '9' then some (c.toNat - 48 + 52)
  else if c == '+' then some 62
  else if c == '/' then some 63
  else none

/-- Reassemble 6-bit groups into bytes, three bytes per four values. -/
def decodeGroups : List Nat → List Nat
  | a :: b :: c :: d :: rest =>
    (a * 4 + b / 16) :: ((b % 16) * 16 + c / 4) :: ((c % 4) * 64 + d) ::
      decodeGroups rest
  | [a, b] => [a * 4 + b / 16]
  | [a, b, c] => [a * 4 + b / 16, (b % 16) * 16 + c / 4]
  | _ => []

/-- Decode a base64 string to its byte values (padding ignored). -/
def decodeBase64 (s : String) : List Nat :=
  decodeGroups (s.data.filterMap base64Val)

/-- Modelled from the spec: the Mime Sniffer, a static table of magic-byte
signatures — PNG `89 50 4E 47`, JPEG `FF D8 FF`, PDF ASCII `%PDF`. -/
def detectMime (bytes : List Nat) : Option String :=
  if [137, 80, 78, 71].isPrefixOf bytes then some "image/png"
  else if [255, 216, 255].isPrefixOf bytes then some "image/jpeg"
  else if [37, 80, 68, 70].isPrefixOf bytes then some "application/pdf"
  else none

/-- Modelled from the spec: the accepted mime set, the image family plus PDF. -/
def isAcceptedMime (m : String) : Bool :=
  "image/".data.isPrefixOf m.data || m == "application/pdf"

/-- Is the optional declared mime type present and in the image family? -/
def isImageMimeOpt (m : Option String) : Bool :=
  match m with
  | some v => "image/".data.isPrefixOf v.data
  | none => false

/-- The characters of the fixed header head `data:`. -/
def dataColonChars : List Char :=
  "data:".data

/-- The characters of the fixed header middle `;base64,`. -/
def semiBase64Chars : List Char :=
  ";base64,".data

/-- Drop an expected literal head from a character list, or fail. -/
def dropPref : List Char → List Char → Option (List Char)
  | [], l => some l
  | _ :: _, [] => none
  | p :: ps, c :: cs => if p = c then dropPref ps cs else none

/-- Split at the first semicolon, keeping it on the right side. -/
def splitSemi : List Char → Option (List Char × List Char)
  | [] => none
  | c :: cs =>
    if c = ';' then some ([], c :: cs)
    else
      match splitSemi cs with
      | some (m, r) => some (c :: m, r)
      | none => none

/-- Modelled from the spec: recognize and split a data-reference header of
the exact form `data:<mime>;base64,<payload>`, returning the embedded mime
characters and the payload characters. -/
def stripDataHeader (l : List Char) : Option (List Char × List Char) :=
  match dropPref dataColonChars l with
  | none => none
  | some rest =>
    match splitSemi rest with
    | none => none
    | some (mime, r) =>
      match dropPref semiBase64Chars r with
      | none => none
      | some payload => some (mime, payload)

/-- Modelled from the spec: the content of an attachment after stripping an
optional data-reference header. -/
def strippedContent (a : ChatAttachment) : String :=
  match stripDataHeader a.content.data with
  | some (_, payload) => String.mk payload
  | none => a.content

/-- Modelled from the spec: the declared mime type, falling back to the mime
embedded in a data-reference header when no mime type was declared. -/
def effectiveMime (a : ChatAttachment) : Option String :=
  match a.mimeType with
  | some m => some m
  | none =>
    match stripDataHeader a.content.data with
    | some (mime, _) => some (String.mk mime)
    | none => none

/-- Fatal error message for malformed base64 content. -/
def invalidBase64Error (name : String) : String :=
  "Attachment " ++ name ++ " has invalid " ++ "base64" ++ " content"

/-- Fatal error message for an oversized decoded payload. -/
def sizeLimitError (name : String) (maxB : Nat) : String :=
  "Attachment " ++ name ++ " " ++ "exceeds size limit" ++ " of " ++
    toString maxB ++ " bytes"

/-- Encode-path error message for a non-image declared mime type. -/
def nonImageError (name : String) : String :=
  "Attachment " ++ name ++ " must have an " ++ "image" ++ " mime type"

/-- Warning for a declared/sniffed mime mismatch. -/
def mismatchWarning (name declared sniffed : String) : String :=
  "Attachment " ++ name ++ ": " ++ "mime mismatch" ++ " (declared " ++
    declared ++ ", detected " ++ sniffed ++ ")"

/-- Warning for a resolved mime type outside the accepted set. -/
def nonAcceptedWarning (name mime : String) : String :=
  "Attachment " ++ name ++ " has " ++ "non-accepted" ++ " mime type " ++ mime

/-- Warning when no accepted mime type can be determined at all. -/
def undetectableWarning (name : String) : String :=
  "Attachment " ++ name ++ ": " ++ "unable to detect accepted mime type"

/-- Per-attachment outcome of the decode-path mime resolution. -/
inductive AttachmentOutcome where
  | keep (mime data : String)
  | keepWarn (mime data warning : String)
  | drop (warning : String)
deriving DecidableEq

/-- Modelled from the spec: mime resolution for one attachment that already
passed the fatal checks — prefer an accepted sniffed type over a differing
declared one (with a mismatch warning), drop non-accepted resolved types
with a warning, drop undetectable ones with a warning. -/
def resolveAttachment (a : ChatAttachment) : AttachmentOutcome :=
  match effectiveMime a, detectMime (decodeBase64 (strippedContent a)) with
  | some d, some s =>
    if d ≠ s ∧ isAcceptedMime s = true then
      AttachmentOutcome.keepWarn s (strippedContent a)
        (mismatchWarning a.fileName d s)
    else if isAcceptedMime d = true then
      AttachmentOutcome.keep d (strippedContent a)
    else AttachmentOutcome.drop (nonAcceptedWarning a.fileName d)
  | some d, none =>
    if isAcceptedMime d = true then
      AttachmentOutcome.keep d (strippedContent a)
    else AttachmentOutcome.drop (nonAcceptedWarning a.fileName d)
  | none, some s =>
    if isAcceptedMime s = true then
      AttachmentOutcome.keep s (strippedContent a)
    else AttachmentOutcome.drop (nonAcceptedWarning a.fileName s)
  | none, none => AttachmentOutcome.drop (undetectableWarning a.fileName)

/-- The image kept for an attachment, if any. -/
def keptImage (a : ChatAttachment) : Option ParsedImage :=
  match resolveAttachment a with
  | AttachmentOutcome.keep m p => some ⟨m, p⟩
  | AttachmentOutcome.keepWarn m p _ => some ⟨m, p⟩
  | AttachmentOutcome.drop _ => none

/-- The warning emitted for an attachment, if any. -/
def attachmentWarning (a : ChatAttachment) : Option String :=
  match resolveAttachment a with
  | AttachmentOutcome.keep _ _ => none
  | AttachmentOutcome.keepWarn _ _ w => some w
  | AttachmentOutcome.drop w => some w

/-- An attachment passes the decode-path fatal checks: stripped content is
valid base64 and its decoded length is within the ceiling. -/
def parseFatalOk (a : ChatAttachment) (maxB : Nat) : Prop :=
  isValidBase64 (strippedContent a) = true ∧
    decodedByteLength (strippedContent a) ≤ maxB

instance (a : ChatAttachment) (maxB : Nat) : Decidable (parseFatalOk a maxB) :=
  inferInstanceAs (Decidable (_ ∧ _))

/-- Modelled from the spec: the decode-path loop — per attachment, in input
order: strip the header, abort the whole call on invalid base64 or an
oversized decode, otherwise resolve the mime type, dropping or keeping the
attachment and collecting warnings. -/
def processAttachments (maxB : Nat) : List ChatAttachment →
    Except String (List ParsedImage × List String)
  | [] => Except.ok ([], [])
  | a :: rest =>
    if isValidBase64 (strippedContent a) = true then
      if decodedByteLength (strippedContent a) ≤ maxB then
        match processAttachments maxB rest with
        | Except.error e => Except.error e
        | Except.ok (imgs, warns) =>
          match resolveAttachment a with
          | AttachmentOutcome.keep m p =>
            Except.ok (⟨m, p⟩ :: imgs, warns)
          | AttachmentOutcome.keepWarn m p w =>
            Except.ok (⟨m, p⟩ :: imgs, w :: warns)
          | AttachmentOutcome.drop w => Except.ok (imgs, w :: warns)
      else Except.error (sizeLimitError a.fileName maxB)
    else Except.error (invalidBase64Error a.fileName)

/-- Modelled from the spec: the asynchronous decode path
`parseMessageWithAttachments(text, attachments, options)`; rejection is
`Except.error`, the emitted warnings are the second component. -/
def parseMessageWithAttachments (text : String) (atts : List ChatAttachment)
    (maxBytes : Option Nat := none) :
    Except String (ParseResult × List String) :=
  match processAttachments (maxBytes.getD defaultMaxBytes) atts with
  | Except.error e => Except.error e
  | Except.ok (imgs, warns) => Except.ok (⟨text, imgs⟩, warns)

/-- The declared mime type or the empty string. -/
def mimeOrEmpty (m : Option String) : String :=
  match m with
  | some v => v
  | none => ""

/-- Modelled from the spec: the rendering marker the encode path appends for
one attachment — a markdown image referencing the file name followed by the
inline data reference `data:<mimeType>;base64,<content>`. -/
def attachmentMarker (a : ChatAttachment) : String :=
  "\n\n" ++ "![" ++ a.fileName ++ "]" ++ "(" ++ "data:" ++
    mimeOrEmpty a.mimeType ++ ";base64," ++ a.content ++ ")"

/-- Concatenation of the markers of a list of attachments. -/
def concatMarkers : List ChatAttachment → String
  | [] => ""
  | a :: rest => attachmentMarker a ++ concatMarkers rest

/-- An attachment passes all encode-path checks: declared image mime type,
valid base64 content, decoded length within the ceiling. -/
def buildOk (a : ChatAttachment) (maxB : Nat) : Prop :=
  isImageMimeOpt a.mimeType = true ∧ isValidBase64 a.content = true ∧
    decodedByteLength a.content ≤ maxB

instance (a : ChatAttachment) (maxB : Nat) : Decidable (buildOk a maxB) :=
  inferInstanceAs (Decidable (_ ∧ _))

/-- Modelled from the spec: the encode-path loop — per attachment, in input
order: fatal error on a non-image declared mime type, invalid base64 or an
oversized decode, otherwise append the rendering marker. -/
def buildGo (maxB : Nat) (acc : String) : List ChatAttachment →
    Except String String
  | [] => Except.ok acc
  | a :: rest =>
    if isImageMimeOpt a.mimeType = true then
      if isValidBase64 a.content = true then
        if decodedByteLength a.content ≤ maxB then
          buildGo maxB (acc ++ attachmentMarker a) rest
        else Except.error (sizeLimitError a.fileName maxB)
      else Except.error (invalidBase64Error a.fileName)
    else Except.error (nonImageError a.fileName)

/-- Modelled from the spec: the synchronous encode path
`buildMessageWithAttachments(text, attachments, options)`; a thrown
validation error is `Except.error`. -/
def buildMessageWithAttachments (text : String) (atts : List ChatAttachment)
    (maxBytes : Option Nat := none) : Except String String :=
  buildGo (maxBytes.getD defaultMaxBytes) text atts

/-- The attachment with its type tag replaced. -/
def withType (t : AttachmentType) (a : ChatAttachment) : ChatAttachment :=
  { a with type := t }

/-- String `pat` occurs as a contiguous substring of `s`. -/
def strContains (s pat : String) : Prop :=
  ∃ l r, s.data = l ++ (pat.data ++ r)

theorem strContains_intro (s pat : String) (l r : List Char)
    (h : s.data = l ++ (pat.data ++ r)) : strContains s pat :=
  ⟨l, r, h⟩

theorem strContains_self (s : String) : strContains s s :=
  ⟨[], [], by simp⟩

theorem strContains_append_left (s t pat : String)
    (h : strContains t pat) : strContains (s ++ t) pat := by
  obtain ⟨l, r, hh⟩ := h
  exact ⟨s.data ++ l, r, by simp [String.data_append, hh]⟩

theorem strContains_append_right (s t pat : String)
    (h : strContains s pat) : strContains (s ++ t) pat := by
  obtain ⟨l, r, hh⟩ := h
  exact ⟨l, r ++ t.data, by simp [String.data_append, hh]⟩

theorem invalidBase64Error_contains (name : String) :
    strContains (invalidBase64Error name) "base64" := by
  refine strContains_intro _ _
    ("Attachment ".data ++ name.data ++ " has invalid ".data)
    (" content".data) ?_
  simp [invalidBase64Error, String.data_append]

theorem sizeLimitError_contains (name : String) (maxB : Nat) :
    strContains (sizeLimitError name maxB) "exceeds size limit" := by
  refine strContains_intro _ _
    ("Attachment ".data ++ name.data ++ " ".data)
    (" of ".data ++ (toString maxB).data ++ " bytes".data) ?_
  simp [sizeLimitError, String.data_append]

theorem nonImageError_contains (name : String) :
    strContains (nonImageError name) "image" := by
  refine strContains_intro _ _
    ("Attachment ".data ++ name.data ++ " must have an ".data)
    (" mime type".data) ?_
  simp [nonImageError, String.data_append]

theorem mismatchWarning_contains (name d s : String) :
    strContains (mismatchWarning name d s) "mime mismatch" := by
  refine strContains_intro _ _
    ("Attachment ".data ++ name.data ++ ": ".data)
    (" (declared ".data ++ d.data ++ ", detected ".data ++ s.data ++
      ")".data) ?_
  simp [mismatchWarning, String.data_append]

theorem mismatchWarning_contains_name (name d s : String) :
    strContains (mismatchWarning name d s) name := by
  refine strContains_intro _ _ ("Attachment ".data)
    (": ".data ++ "mime mismatch".data ++ " (declared ".data ++ d.data ++
      ", detected ".data ++ s.data ++ ")".data) ?_
  simp [mismatchWarning, String.data_append]

theorem nonAcceptedWarning_contains_name (name m : String) :
    strContains (nonAcceptedWarning name m) name := by
  refine strContains_intro _ _ ("Attachment ".data)
    (" has ".data ++ "non-accepted".data ++ " mime type ".data ++
      m.data) ?_
  simp [nonAcceptedWarning, String.data_append]

theorem undetectableWarning_contains_name (name : String) :
    strContains (undetectableWarning name) name := by
  refine strContains_intro _ _ ("Attachment ".data)
    (": ".data ++ "unable to detect accepted mime type".data) ?_
  simp [undetectableWarning, String.data_append]

theorem dropPref_eq (p : List Char) : ∀ l r, dropPref p l = some r →
    l = p ++ r := by
  induction p with
  | nil => intro l r h; simp [dropPref] at h; simp [h]
  | cons x xs ih =>
    intro l r h
    cases l with
    | nil => simp [dropPref] at h
    | cons c cs =>
      by_cases hx : x = c
      · subst hx
        simp [dropPref] at h
        simp [ih cs r h]
      · simp [dropPref, hx] at h

theorem splitSemi_eq : ∀ l m r, splitSemi l = some (m, r) → l = m ++ r := by
  intro l
  induction l with
  | nil => intro m r h; simp [splitSemi] at h
  | cons c cs ih =>
    intro m r h
    by_cases hc : c = ';'
    · subst hc
      simp [splitSemi] at h
      simp [h.1.symm, h.2.symm]
    · simp only [splitSemi, if_neg hc] at h
      cases hs : splitSemi cs with
      | none => rw [hs] at h; simp at h
      | some pr =>
        obtain ⟨m0, r0⟩ := pr
        rw [hs] at h
        simp only [Option.some.injEq, Prod.mk.injEq] at h
        obtain ⟨hm, hr⟩ := h
        have hcs := ih m0 r0 hs
        subst hm; subst hr
        simp [hcs]

theorem stripDataHeader_eq (l m p : List Char)
    (h : stripDataHeader l = some (m, p)) :
    l = dataColonChars ++ (m ++ (semiBase64Chars ++ p)) := by
  cases h1 : dropPref dataColonChars l with
  | none => simp [stripDataHeader, h1] at h
  | some rest =>
    cases h2 : splitSemi rest with
    | none => simp [stripDataHeader, h1, h2] at h
    | some mr =>
      obtain ⟨mime, r⟩ := mr
      cases h3 : dropPref semiBase64Chars r with
      | none => simp [stripDataHeader, h1, h2, h3] at h
      | some payload =>
        simp only [stripDataHeader, h1, h2, h3, Option.some.injEq,
          Prod.mk.injEq] at h
        obtain ⟨hm, hp⟩ := h
        subst hm; subst hp
        rw [dropPref_eq _ _ _ h1, splitSemi_eq _ _ _ h2,
          dropPref_eq _ _ _ h3]

theorem isValidBase64L_cons_of_char (c : Char) (cs : List Char)
    (hc : base64Char c = true) :
    isValidBase64L (c :: cs) = isValidBase64L cs := by
  simp [isValidBase64L, hc]

theorem isValidBase64L_dataColon (xs : List Char) :
    isValidBase64L (dataColonChars ++ xs) = false := by
  have h : dataColonChars ++ xs = 'd' :: 'a' :: 't' :: 'a' :: ':' :: xs :=
    rfl
  rw [h]
  rw [isValidBase64L_cons_of_char _ _ (by decide)]
  rw [isValidBase64L_cons_of_char _ _ (by decide)]
  rw [isValidBase64L_cons_of_char _ _ (by decide)]
  rw [isValidBase64L_cons_of_char _ _ (by decide)]
  have hcolon : base64Char ':' = false := by decide
  simp [isValidBase64L, hcolon, padOnly]

theorem invalid_of_header (a : ChatAttachment) (m p : List Char)
    (h : stripDataHeader a.content.data = some (m, p)) :
    isValidBase64 a.content = false := by
  unfold isValidBase64
  rw [stripDataHeader_eq _ _ _ h]
  exact isValidBase64L_dataColon _

theorem strippedContent_of_valid (a : ChatAttachment)
    (h : isValidBase64 a.content = true) :
    strippedContent a = a.content := by
  unfold strippedContent
  cases hs : stripDataHeader a.content.data with
  | none => rfl
  | some mp =>
    obtain ⟨m, p⟩ := mp
    rw [invalid_of_header a m p hs] at h
    simp at h

theorem raw_invalid_of_stripped_invalid (a : ChatAttachment)
    (h : isValidBase64 (strippedContent a) = false) :
    isValidBase64 a.content = false := by
  unfold strippedContent at h
  cases hs : stripDataHeader a.content.data with
  | none => rw [hs] at h; exact h
  | some mp =>
    obtain ⟨m, p⟩ := mp
    exact invalid_of_header a m p hs

theorem resolveAttachment_keep_accepted (a : ChatAttachment)
    (m p : String) (h : resolveAttachment a = AttachmentOutcome.keep m p) :
    isAcceptedMime m = true := by
  unfold resolveAttachment at h
  cases hd : effectiveMime a with
  | some d =>
    cases hs : detectMime (decodeBase64 (strippedContent a)) with
    | some s =>
      rw [hd, hs] at h; dsimp only at h
      by_cases h1 : d ≠ s ∧ isAcceptedMime s = true
      · rw [if_pos h1] at h; simp at h
      · rw [if_neg h1] at h
        by_cases h2 : isAcceptedMime d = true
        · rw [if_pos h2] at h
          simp at h
          rw [← h.1]; exact h2
        · rw [if_neg h2] at h; simp at h
    | none =>
      rw [hd, hs] at h; dsimp only at h
      by_cases h2 : isAcceptedMime d = true
      · rw [if_pos h2] at h
        simp at h
        rw [← h.1]; exact h2
      · rw [if_neg h2] at h; simp at h
  | none =>
    cases hs : detectMime (decodeBase64 (strippedContent a)) with
    | some s =>
      rw [hd, hs] at h; dsimp only at h
      by_cases h2 : isAcceptedMime s = true
      · rw [if_pos h2] at h
        simp at h
        rw [← h.1]; exact h2
      · rw [if_neg h2] at h; simp at h
    | none => rw [hd, hs] at h; dsimp only at h; simp at h

theorem resolveAttachment_keepWarn_accepted (a : ChatAttachment)
    (m p w : String)
    (h : resolveAttachment a = AttachmentOutcome.keepWarn m p w) :
    isAcceptedMime m = true := by
  unfold resolveAttachment at h
  cases hd : effectiveMime a with
  | some d =>
    cases hs : detectMime (decodeBase64 (strippedContent a)) with
    | some s =>
      rw [hd, hs] at h; dsimp only at h
      by_cases h1 : d ≠ s ∧ isAcceptedMime s = true
      · rw [if_pos h1] at h
        simp at h
        rw [← h.1]; exact h1.2
      · rw [if_neg h1] at h
        by_cases h2 : isAcceptedMime d = true
        · rw [if_pos h2] at h; simp at h
        · rw [if_neg h2] at h; simp at h
    | none =>
      rw [hd, hs] at h; dsimp only at h
      by_cases h2 : isAcceptedMime d = true
      · rw [if_pos h2] at h; simp at h
      · rw [if_neg h2] at h; simp at h
  | none =>
    cases hs : detectMime (decodeBase64 (strippedContent a)) with
    | some s =>
      rw [hd, hs] at h; dsimp only at h
      by_cases h2 : isAcceptedMime s = true
      · rw [if_pos h2] at h; simp at h
      · rw [if_neg h2] at h; simp at h
    | none => rw [hd, hs] at h; dsimp only at h; simp at h

theorem resolveAttachment_drop_names (a : ChatAttachment) (w : String)
    (h : resolveAttachment a = AttachmentOutcome.drop w) :
    strContains w a.fileName := by
  unfold resolveAttachment at h
  cases hd : effectiveMime a with
  | some d =>
    cases hs : detectMime (decodeBase64 (strippedContent a)) with
    | some s =>
      rw [hd, hs] at h; dsimp only at h
      by_cases h1 : d ≠ s ∧ isAcceptedMime s = true
      · rw [if_pos h1] at h; simp at h
      · rw [if_neg h1] at h
        by_cases h2 : isAcceptedMime d = true
        · rw [if_pos h2] at h; simp at h
        · rw [if_neg h2] at h
          simp at h
          rw [← h]
          exact nonAcceptedWarning_contains_name _ _
    | none =>
      rw [hd, hs] at h; dsimp only at h
      by_cases h2 : isAcceptedMime d = true
      · rw [if_pos h2] at h; simp at h
      · rw [if_neg h2] at h
        simp at h
        rw [← h]
        exact nonAcceptedWarning_contains_name _ _
  | none =>
    cases hs : detectMime (decodeBase64 (strippedContent a)) with
    | some s =>
      rw [hd, hs] at h; dsimp only at h
      by_cases h2 : isAcceptedMime s = true
      · rw [if_pos h2] at h; simp at h
      · rw [if_neg h2] at h
        simp at h
        rw [← h]
        exact nonAcceptedWarning_contains_name _ _
    | none =>
      rw [hd, hs] at h; dsimp only at h
      simp at h
      rw [← h]
      exact undetectableWarning_contains_name _

theorem keptImage_none_warning (a : ChatAttachment)
    (h : keptImage a = none) :
    ∃ w, attachmentWarning a = some w ∧ strContains w a.fileName := by
  unfold keptImage at h
  cases hr : resolveAttachment a with
  | keep m p => rw [hr] at h; simp at h
  | keepWarn m p w => rw [hr] at h; simp at h
  | drop w =>
    exact ⟨w, by simp [attachmentWarning, hr],
      resolveAttachment_drop_names a w hr⟩

theorem processAttachments_ok (maxB : Nat) (atts : List ChatAttachment)
    (h : ∀ a ∈ atts, parseFatalOk a maxB) :
    processAttachments maxB atts =
      Except.ok (atts.filterMap keptImage, atts.filterMap attachmentWarning) := by
  induction atts with
  | nil => rfl
  | cons a rest ih =>
    have ha := h a (by simp)
    have hrest := ih (fun b hb => h b (by simp [hb]))
    simp only [processAttachments, ha.1, if_pos ha.2, if_true, hrest]
    cases hr : resolveAttachment a with
    | keep m p =>
      simp [List.filterMap_cons, keptImage, attachmentWarning, hr]
    | keepWarn m p w =>
      simp [List.filterMap_cons, keptImage, attachmentWarning, hr]
    | drop w =>
      simp [List.filterMap_cons, keptImage, attachmentWarning, hr]

theorem processAttachments_prepend (maxB : Nat) (pre rest : List ChatAttachment)
    (e : String) (hpre : ∀ b ∈ pre, parseFatalOk b maxB)
    (h : processAttachments maxB rest = Except.error e) :
    processAttachments maxB (pre ++ rest) = Except.error e := by
  induction pre with
  | nil => simpa using h
  | cons b pre2 ih =>
    have hb := hpre b (by simp)
    have hih := ih (fun c hc => hpre c (by simp [hc]))
    simp only [List.cons_append, processAttachments, hb.1, if_pos hb.2,
      if_true]
    rw [show pre2.append rest = pre2 ++ rest from rfl, hih]

theorem processAttachments_head_invalid (maxB : Nat) (a : ChatAttachment)
    (post : List ChatAttachment)
    (h : isValidBase64 (strippedContent a) = false) :
    processAttachments maxB (a :: post) =
      Except.error (invalidBase64Error a.fileName) := by
  simp [processAttachments, h]

theorem processAttachments_head_oversize (maxB : Nat) (a : ChatAttachment)
    (post : List ChatAttachment)
    (hv : isValidBase64 (strippedContent a) = true)
    (h : maxB < decodedByteLength (strippedContent a)) :
    processAttachments maxB (a :: post) =
      Except.error (sizeLimitError a.fileName maxB) := by
  simp [processAttachments, hv, Nat.not_le_of_lt h]

theorem strAppend_assoc (a b c : String) : a ++ b ++ c = a ++ (b ++ c) := by
  apply String.ext
  simp [String.data_append]

theorem strAppend_empty (a : String) : a ++ "" = a := by
  apply String.ext
  have h : "".data = [] := rfl
  simp [String.data_append, h]

theorem buildGo_ok (maxB : Nat) (atts : List ChatAttachment)
    (h : ∀ a ∈ atts, buildOk a maxB) : ∀ acc,
    buildGo maxB acc atts = Except.ok (acc ++ concatMarkers atts) := by
  induction atts with
  | nil => intro acc; simp [buildGo, concatMarkers, strAppend_empty]
  | cons a rest ih =>
    intro acc
    have ha := h a (by simp)
    have hih := ih (fun b hb => h b (by simp [hb])) (acc ++ attachmentMarker a)
    simp only [buildGo, ha.1, ha.2.1, if_pos ha.2.2, if_true, hih,
      concatMarkers, strAppend_assoc]

theorem buildGo_prepend (maxB : Nat) (pre rest : List ChatAttachment)
    (h : ∀ b ∈ pre, buildOk b maxB) : ∀ acc,
    buildGo maxB acc (pre ++ rest) =
      buildGo maxB (acc ++ concatMarkers pre) rest := by
  induction pre with
  | nil => intro acc; simp [concatMarkers, strAppend_empty]
  | cons b pre2 ih =>
    intro acc
    have hb := h b (by simp)
    have hih := ih (fun c hc => h c (by simp [hc])) (acc ++ attachmentMarker b)
    simp only [List.cons_append, buildGo, hb.1, hb.2.1, if_pos hb.2.2,
      if_true, concatMarkers]
    rw [show pre2.append rest = pre2 ++ rest from rfl, hih, strAppend_assoc]

theorem buildGo_head_nonimage (maxB : Nat) (acc : String)
    (a : ChatAttachment) (post : List ChatAttachment)
    (h : isImageMimeOpt a.mimeType = false) :
    buildGo maxB acc (a :: post) = Except.error (nonImageError a.fileName) := by
  simp [buildGo, h]

theorem buildGo_head_invalid (maxB : Nat) (acc : String)
    (a : ChatAttachment) (post : List ChatAttachment)
    (hm : isImageMimeOpt a.mimeType = true)
    (h : isValidBase64 a.content = false) :
    buildGo maxB acc (a :: post) =
      Except.error (invalidBase64Error a.fileName) := by
  simp [buildGo, hm, h]

theorem buildGo_head_oversize (maxB : Nat) (acc : String)
    (a : ChatAttachment) (post : List ChatAttachment)
    (hm : isImageMimeOpt a.mimeType = true)
    (hv : isValidBase64 a.content = true)
    (h : maxB < decodedByteLength a.content) :
    buildGo maxB acc (a :: post) =
      Except.error (sizeLimitError a.fileName maxB) := by
  simp [buildGo, hm, hv, Nat.not_le_of_lt h]

theorem strContains_concatMarkers (atts : List ChatAttachment)
    (a : ChatAttachment) (pat : String) (ha : a ∈ atts)
    (h : strContains (attachmentMarker a) pat) :
    strContains (concatMarkers atts) pat := by
  induction atts with
  | nil => cases ha
  | cons b rest ih =>
    rcases List.mem_cons.mp ha with hab | hmem
    · subst hab
      exact strContains_append_right _ _ _ h
    · exact strContains_append_left _ _ _ (ih hmem)

theorem attachmentMarker_contains_bang (a : ChatAttachment) :
    strContains (attachmentMarker a) ("![" ++ a.fileName ++ "]") := by
  refine strContains_intro _ _ ("\n\n".data)
    ("(".data ++ "data:".data ++ (mimeOrEmpty a.mimeType).data ++
      ";base64,".data ++ a.content.data ++ ")".data) ?_
  simp [attachmentMarker, String.data_append]

theorem attachmentMarker_contains_dataUrl (a : ChatAttachment) (m : String)
    (hm : a.mimeType = some m) :
    strContains (attachmentMarker a) ("data:" ++ m ++ ";base64," ++ a.content) := by
  refine strContains_intro _ _
    ("\n\n".data ++ "![".data ++ a.fileName.data ++ "]".data ++ "(".data)
    (")".data) ?_
  simp [attachmentMarker, hm, mimeOrEmpty, String.data_append]

theorem attachmentMarker_contains_full (a : ChatAttachment) (m : String)
    (hm : a.mimeType = some m) :
    strContains (attachmentMarker a)
      ("![" ++ a.fileName ++ "]" ++ "(" ++ "data:" ++ m ++ ";base64," ++
        a.content ++ ")") := by
  refine strContains_intro _ _ ("\n\n".data) [] ?_
  simp [attachmentMarker, hm, mimeOrEmpty, String.data_append]

theorem processAttachments_images_accepted (maxB : Nat) :
    ∀ (atts : List ChatAttachment) (imgs : List ParsedImage)
      (warns : List String),
      processAttachments maxB atts = Except.ok (imgs, warns) →
      ∀ img ∈ imgs, isAcceptedMime img.mimeType = true := by
  intro atts
  induction atts with
  | nil =>
    intro imgs warns h img hmem
    simp [processAttachments] at h
    rw [h.1] at hmem
    cases hmem
  | cons a rest ih =>
    intro imgs warns h img hmem
    by_cases hv : isValidBase64 (strippedContent a) = true
    · by_cases hle : decodedByteLength (strippedContent a) ≤ maxB
      · simp only [processAttachments, hv, if_pos hle, if_true] at h
        cases hrec : processAttachments maxB rest with
        | error e => rw [hrec] at h; simp at h
        | ok p =>
          obtain ⟨i2, w2⟩ := p
          rw [hrec] at h
          cases hr : resolveAttachment a with
          | keep m q =>
            rw [hr] at h
            simp at h
            rw [← h.1] at hmem
            rcases List.mem_cons.mp hmem with him | him
            · rw [him]
              exact resolveAttachment_keep_accepted a m q hr
            · exact ih i2 w2 hrec img him
          | keepWarn m q w =>
            rw [hr] at h
            simp at h
            rw [← h.1] at hmem
            rcases List.mem_cons.mp hmem with him | him
            · rw [him]
              exact resolveAttachment_keepWarn_accepted a m q w hr
            · exact ih i2 w2 hrec img him
          | drop w =>
            rw [hr] at h
            simp at h
            exact ih i2 w2 hrec img (by rw [h.1]; exact hmem)
      · simp [processAttachments, hv, hle] at h
    · simp [processAttachments, hv] at h

theorem processAttachments_withType (maxB : Nat)
    (f : ChatAttachment → AttachmentType) (atts : List ChatAttachment) :
    processAttachments maxB (atts.map (fun a => withType (f a) a)) =
      processAttachments maxB atts := by
  induction atts with
  | nil => rfl
  | cons a rest ih =>
    have h1 : strippedContent (withType (f a) a) = strippedContent a := rfl
    have h2 : (withType (f a) a).fileName = a.fileName := rfl
    have h3 : resolveAttachment (withType (f a) a) = resolveAttachment a := rfl
    simp only [List.map_cons, processAttachments, h1, h2, h3, ih]

theorem resolveAttachment_mismatch (a : ChatAttachment) (d s : String)
    (hd : effectiveMime a = some d)
    (hs : detectMime (decodeBase64 (strippedContent a)) = some s)
    (hne : d ≠ s) (hacc : isAcceptedMime s = true) :
    resolveAttachment a =
      AttachmentOutcome.keepWarn s (strippedContent a)
        (mismatchWarning a.fileName d s) := by
  unfold resolveAttachment
  rw [hd, hs]
  dsimp only
  rw [if_pos ⟨hne, hacc⟩]

/-- C1: if any attachment content, after stripping an optional
data-reference header, is not syntactically valid base64, then both the
encode call and the decode call fail as a whole — the encode path at the
first such attachment it reaches, the decode path likewise — with an error
message identifying base64 as the cause, and no partial result is
returned. -/
theorem build_parse_invalid_base64_fatal (text : String)
    (pre post : List ChatAttachment) (a : ChatAttachment) (mb : Option Nat)
    (hpreB : ∀ b ∈ pre, buildOk b (mb.getD defaultMaxBytes))
    (hpreP : ∀ b ∈ pre, parseFatalOk b (mb.getD defaultMaxBytes))
    (hmime : isImageMimeOpt a.mimeType = true)
    (hbad : isValidBase64 (strippedContent a) = false) :
    buildMessageWithAttachments text (pre ++ a :: post) mb =
      Except.error (invalidBase64Error a.fileName) ∧
    parseMessageWithAttachments text (pre ++ a :: post) mb =
      Except.error (invalidBase64Error a.fileName) ∧
    strContains (invalidBase64Error a.fileName) "base64" := by
  refine ⟨?_, ?_, invalidBase64Error_contains _⟩
  · unfold buildMessageWithAttachments
    rw [buildGo_prepend _ _ _ hpreB text]
    exact buildGo_head_invalid _ _ _ _ hmime
      (raw_invalid_of_stripped_invalid a hbad)
  · have hp := processAttachments_prepend (mb.getD defaultMaxBytes) pre
      (a :: post) _ hpreP
      (processAttachments_head_invalid (mb.getD defaultMaxBytes) a post hbad)
    simp [parseMessageWithAttachments, hp]

theorem build_parse_invalid_base64_fatal_witness :
    buildMessageWithAttachments "x"
      ([] ++ (⟨AttachmentType.image, some "image/png", "dot.png",
        "%not-base64%"⟩ : ChatAttachment) :: []) none =
      Except.error (invalidBase64Error "dot.png") ∧
    parseMessageWithAttachments "x"
      ([] ++ (⟨AttachmentType.image, some "image/png", "dot.png",
        "%not-base64%"⟩ : ChatAttachment) :: []) none =
      Except.error (invalidBase64Error "dot.png") ∧
    strContains (invalidBase64Error "dot.png") "base64" :=
  build_parse_invalid_base64_fatal "x" [] []
    ⟨AttachmentType.image, some "image/png", "dot.png", "%not-base64%"⟩
    none (by simp) (by simp) (by decide) (by decide)

/-- C2: if any attachment decodes to more than maxBytes bytes (the ceiling
defaulting to 5,000,000 when the option is omitted), both the encode call
and the decode call fail as a whole with a message stating the size limit
was exceeded. -/
theorem build_parse_size_limit_fatal (text : String)
    (pre post : List ChatAttachment) (a : ChatAttachment) (mb : Option Nat)
    (hpreB : ∀ b ∈ pre, buildOk b (mb.getD defaultMaxBytes))
    (hpreP : ∀ b ∈ pre, parseFatalOk b (mb.getD defaultMaxBytes))
    (hmime : isImageMimeOpt a.mimeType = true)
    (hval : isValidBase64 a.content = true)
    (hsize : mb.getD defaultMaxBytes < decodedByteLength a.content) :
    buildMessageWithAttachments text (pre ++ a :: post) mb =
      Except.error (sizeLimitError a.fileName (mb.getD defaultMaxBytes)) ∧
    parseMessageWithAttachments text (pre ++ a :: post) mb =
      Except.error (sizeLimitError a.fileName (mb.getD defaultMaxBytes)) ∧
    strContains (sizeLimitError a.fileName (mb.getD defaultMaxBytes))
      "exceeds size limit" ∧
    defaultMaxBytes = 5000000 := by
  have hstrip := strippedContent_of_valid a hval
  refine ⟨?_, ?_, sizeLimitError_contains _ _, rfl⟩
  · unfold buildMessageWithAttachments
    rw [buildGo_prepend _ _ _ hpreB text]
    exact buildGo_head_oversize _ _ _ _ hmime hval hsize
  · have hh := processAttachments_head_oversize (mb.getD defaultMaxBytes) a
      post (by rw [hstrip]; exact hval) (by rw [hstrip]; exact hsize)
    have hp := processAttachments_prepend (mb.getD defaultMaxBytes) pre
      (a :: post) _ hpreP hh
    simp [parseMessageWithAttachments, hp]

theorem build_parse_size_limit_fatal_witness :
    buildMessageWithAttachments "x"
      ([] ++ (⟨AttachmentType.image, some "image/png", "big.png",
        "AAAA"⟩ : ChatAttachment) :: []) (some 2) =
      Except.error (sizeLimitError "big.png" ((some 2).getD defaultMaxBytes)) ∧
    parseMessageWithAttachments "x"
      ([] ++ (⟨AttachmentType.image, some "image/png", "big.png",
        "AAAA"⟩ : ChatAttachment) :: []) (some 2) =
      Except.error (sizeLimitError "big.png" ((some 2).getD defaultMaxBytes)) ∧
    strContains (sizeLimitError "big.png" ((some 2).getD defaultMaxBytes))
      "exceeds size limit" ∧
    defaultMaxBytes = 5000000 :=
  build_parse_size_limit_fatal "x" [] []
    ⟨AttachmentType.image, some "image/png", "big.png", "AAAA"⟩
    (some 2) (by simp) (by simp) (by decide) (by decide) (by decide)

/-- C3: when every attachment passes the fatal checks (valid base64 after
header stripping, decoded size within the ceiling), the decode call
succeeds; the accepted attachments appear in images in their relative
input order with no gap or placeholder (a filterMap of the input list),
and every dropped attachment produces exactly one warning naming its
file. -/
theorem parse_filters_and_warns (text : String)
    (atts : List ChatAttachment) (mb : Option Nat)
    (h : ∀ a ∈ atts, parseFatalOk a (mb.getD defaultMaxBytes)) :
    parseMessageWithAttachments text atts mb =
      Except.ok (⟨text, atts.filterMap keptImage⟩,
        atts.filterMap attachmentWarning) ∧
    ∀ a ∈ atts, keptImage a = none →
      ∃ w, attachmentWarning a = some w ∧ strContains w a.fileName := by
  refine ⟨?_, fun a _ hk => keptImage_none_warning a hk⟩
  simp [parseMessageWithAttachments,
    processAttachments_ok (mb.getD defaultMaxBytes) atts h]

theorem parse_filters_and_warns_witness :
    parseMessageWithAttachments "x"
      [⟨AttachmentType.image, some "image/png", "dot.png", "iVBORw=="⟩,
       ⟨AttachmentType.file, some "application/octet-stream", "random.bin",
        "AAAA"⟩] none =
      Except.ok
        (⟨"x",
          [⟨AttachmentType.image, some "image/png", "dot.png",
            "iVBORw=="⟩,
           ⟨AttachmentType.file, some "application/octet-stream",
            "random.bin", "AAAA"⟩].filterMap keptImage⟩,
          [⟨AttachmentType.image, some "image/png", "dot.png",
            "iVBORw=="⟩,
           ⟨AttachmentType.file, some "application/octet-stream",
            "random.bin", "AAAA"⟩].filterMap attachmentWarning) ∧
    ∀ a ∈ [(⟨AttachmentType.image, some "image/png", "dot.png",
            "iVBORw=="⟩ : ChatAttachment),
           ⟨AttachmentType.file, some "application/octet-stream",
            "random.bin", "AAAA"⟩], keptImage a = none →
      ∃ w, attachmentWarning a = some w ∧ strContains w a.fileName :=
  parse_filters_and_warns "x"
    [⟨AttachmentType.image, some "image/png", "dot.png", "iVBORw=="⟩,
     ⟨AttachmentType.file, some "application/octet-stream", "random.bin",
      "AAAA"⟩] none (by decide)

/-- C4: when an attachment that passes the fatal checks has a declared (or
header-derived) mime type differing from the type sniffed from its decoded
magic bytes, and the sniffed type is accepted, the attachment is kept with
the sniffed mime type (not the declared one), at its original relative
position, and exactly one warning noting the mime mismatch and naming the
file is emitted. -/
theorem parse_mismatch_prefers_sniffed (text : String)
    (pre post : List ChatAttachment) (a : ChatAttachment) (mb : Option Nat)
    (d s : String)
    (hpre : ∀ b ∈ pre, parseFatalOk b (mb.getD defaultMaxBytes))
    (hpost : ∀ b ∈ post, parseFatalOk b (mb.getD defaultMaxBytes))
    (ha : parseFatalOk a (mb.getD defaultMaxBytes))
    (hd : effectiveMime a = some d)
    (hs : detectMime (decodeBase64 (strippedContent a)) = some s)
    (hne : d ≠ s) (hacc : isAcceptedMime s = true) :
    parseMessageWithAttachments text (pre ++ a :: post) mb =
      Except.ok
        (⟨text, pre.filterMap keptImage ++
          ⟨s, strippedContent a⟩ :: post.filterMap keptImage⟩,
          pre.filterMap attachmentWarning ++
            mismatchWarning a.fileName d s ::
              post.filterMap attachmentWarning) ∧
    strContains (mismatchWarning a.fileName d s) "mime mismatch" ∧
    strContains (mismatchWarning a.fileName d s) a.fileName := by
  have hres := resolveAttachment_mismatch a d s hd hs hne hacc
  have hall : ∀ b ∈ pre ++ a :: post,
      parseFatalOk b (mb.getD defaultMaxBytes) := by
    intro b hb
    rcases List.mem_append.mp hb with h1 | h2
    · exact hpre b h1
    · rcases List.mem_cons.mp h2 with h3 | h4
      · rw [h3]; exact ha
      · exact hpost b h4
  have hk : keptImage a = some ⟨s, strippedContent a⟩ := by
    simp [keptImage, hres]
  have hw : attachmentWarning a = some (mismatchWarning a.fileName d s) := by
    simp [attachmentWarning, hres]
  refine ⟨?_, mismatchWarning_contains _ _ _,
    mismatchWarning_contains_name _ _ _⟩
  have hp := processAttachments_ok (mb.getD defaultMaxBytes)
    (pre ++ a :: post) hall
  simp [parseMessageWithAttachments, hp, List.filterMap_append,
    List.filterMap_cons, hk, hw]

theorem parse_mismatch_prefers_sniffed_witness :
    parseMessageWithAttachments "x"
      ([] ++ (⟨AttachmentType.image, some "image/jpeg", "dot.png",
        "iVBORw=="⟩ : ChatAttachment) :: []) none =
      Except.ok
        (⟨"x", ([] : List ChatAttachment).filterMap keptImage ++
          ⟨"image/png",
            strippedContent ⟨AttachmentType.image, some "image/jpeg",
              "dot.png", "iVBORw=="⟩⟩ ::
            ([] : List ChatAttachment).filterMap keptImage⟩,
          ([] : List ChatAttachment).filterMap attachmentWarning ++
            mismatchWarning "dot.png" "image/jpeg" "image/png" ::
              ([] : List ChatAttachment).filterMap attachmentWarning) ∧
    strContains (mismatchWarning "dot.png" "image/jpeg" "image/png")
      "mime mismatch" ∧
    strContains (mismatchWarning "dot.png" "image/jpeg" "image/png")
      "dot.png" :=
  parse_mismatch_prefers_sniffed "x" [] []
    ⟨AttachmentType.image, some "image/jpeg", "dot.png", "iVBORw=="⟩
    none "image/jpeg" "image/png" (by simp) (by simp) (by decide)
    (by decide) (by decide) (by decide) (by decide)

/-- C5: when every attachment passes the encode-path checks, the built
message contains the literal input text and, for each attachment, the
file-name-referencing marker immediately followed by the inline data
reference, i.e. the exact substring data:<mimeType>;base64,<content>. -/
theorem build_output_contains (text : String) (atts : List ChatAttachment)
    (mb : Option Nat)
    (h : ∀ a ∈ atts, buildOk a (mb.getD defaultMaxBytes)) :
    ∃ out, buildMessageWithAttachments text atts mb = Except.ok out ∧
      strContains out text ∧
      ∀ a ∈ atts, ∀ m, a.mimeType = some m →
        strContains out ("![" ++ a.fileName ++ "]" ++ "(" ++ "data:" ++ m ++
          ";base64," ++ a.content ++ ")") ∧
        strContains out ("data:" ++ m ++ ";base64," ++ a.content) := by
  refine ⟨text ++ concatMarkers atts, ?_, ?_, ?_⟩
  · unfold buildMessageWithAttachments
    exact buildGo_ok _ _ h text
  · exact strContains_append_right _ _ _ (strContains_self text)
  · intro a ha m hm
    exact ⟨strContains_append_left _ _ _
        (strContains_concatMarkers atts a _ ha
          (attachmentMarker_contains_full a m hm)),
      strContains_append_left _ _ _
        (strContains_concatMarkers atts a _ ha
          (attachmentMarker_contains_dataUrl a m hm))⟩

theorem build_output_contains_witness :
    ∃ out, buildMessageWithAttachments "see this"
      [⟨AttachmentType.image, some "image/png", "dot.png", "iVBORw=="⟩]
      none = Except.ok out ∧
      strContains out "see this" ∧
      ∀ a ∈ [(⟨AttachmentType.image, some "image/png", "dot.png",
          "iVBORw=="⟩ : ChatAttachment)], ∀ m, a.mimeType = some m →
        strContains out ("![" ++ a.fileName ++ "]" ++ "(" ++ "data:" ++ m ++
          ";base64," ++ a.content ++ ")") ∧
        strContains out ("data:" ++ m ++ ";base64," ++ a.content) :=
  build_output_contains "see this"
    [⟨AttachmentType.image, some "image/png", "dot.png", "iVBORw=="⟩]
    none (by decide)

/-- C6: the encode path is all-or-nothing — when some attachment fails a
validation check (in particular a declared mime type outside the image
family, like application/pdf), the call returns an error and no partial
message; when the offending attachment has a non-image declared type, the
message identifies the non-image cause. -/
theorem build_invalid_attachment_aborts (text : String)
    (pre post : List ChatAttachment) (a : ChatAttachment) (mb : Option Nat)
    (hpre : ∀ b ∈ pre, buildOk b (mb.getD defaultMaxBytes))
    (ha : ¬ buildOk a (mb.getD defaultMaxBytes)) :
    (∃ e, buildMessageWithAttachments text (pre ++ a :: post) mb =
      Except.error e) ∧
    (isImageMimeOpt a.mimeType = false →
      buildMessageWithAttachments text (pre ++ a :: post) mb =
        Except.error (nonImageError a.fileName) ∧
      strContains (nonImageError a.fileName) "image") := by
  have hpp : buildMessageWithAttachments text (pre ++ a :: post) mb =
      buildGo (mb.getD defaultMaxBytes) (text ++ concatMarkers pre)
        (a :: post) := by
    unfold buildMessageWithAttachments
    exact buildGo_prepend _ _ _ hpre text
  constructor
  · by_cases h1 : isImageMimeOpt a.mimeType = true
    · by_cases h2 : isValidBase64 a.content = true
      · by_cases h3 : decodedByteLength a.content ≤ mb.getD defaultMaxBytes
        · exact absurd ⟨h1, h2, h3⟩ ha
        · exact ⟨_, by
            rw [hpp]
            exact buildGo_head_oversize _ _ _ _ h1 h2 (Nat.lt_of_not_le h3)⟩
      · have h2f : isValidBase64 a.content = false := by
          cases hb : isValidBase64 a.content with
          | false => rfl
          | true => exact absurd hb h2
        exact ⟨_, by
          rw [hpp]
          exact buildGo_head_invalid _ _ _ _ h1 h2f⟩
    · have h1f : isImageMimeOpt a.mimeType = false := by
        cases hb : isImageMimeOpt a.mimeType with
        | false => rfl
        | true => exact absurd hb h1
      exact ⟨_, by
        rw [hpp]
        exact buildGo_head_nonimage _ _ _ _ h1f⟩
  · intro hni
    refine ⟨by
      rw [hpp]
      exact buildGo_head_nonimage _ _ _ _ hni, nonImageError_contains _⟩

theorem build_invalid_attachment_aborts_witness :
    (∃ e, buildMessageWithAttachments "x"
      ([] ++ (⟨AttachmentType.file, some "application/pdf", "a.pdf",
        "AAA"⟩ : ChatAttachment) :: []) none = Except.error e) ∧
    (isImageMimeOpt (some "application/pdf") = false →
      buildMessageWithAttachments "x"
        ([] ++ (⟨AttachmentType.file, some "application/pdf", "a.pdf",
          "AAA"⟩ : ChatAttachment) :: []) none =
        Except.error (nonImageError "a.pdf") ∧
      strContains (nonImageError "a.pdf") "image") :=
  build_invalid_attachment_aborts "x" [] []
    ⟨AttachmentType.file, some "application/pdf", "a.pdf", "AAA"⟩
    none (by simp) (by decide)

/-- C7: every image returned by a successful decode call carries a mime
type from the accepted set (image family or application/pdf); no other
mime type is ever present in the images list. -/
theorem parse_images_accepted (text : String) (atts : List ChatAttachment)
    (mb : Option Nat) (r : ParseResult × List String)
    (h : parseMessageWithAttachments text atts mb = Except.ok r) :
    ∀ img ∈ r.1.images, isAcceptedMime img.mimeType = true := by
  unfold parseMessageWithAttachments at h
  cases hp : processAttachments (mb.getD defaultMaxBytes) atts with
  | error e => rw [hp] at h; simp at h
  | ok p =>
    obtain ⟨imgs, warns⟩ := p
    rw [hp] at h
    dsimp only at h
    simp only [Except.ok.injEq] at h
    rw [← h]
    intro img hmem
    exact processAttachments_images_accepted (mb.getD defaultMaxBytes)
      atts imgs warns hp img hmem

theorem parse_images_accepted_witness :
    isAcceptedMime
      (ParsedImage.mimeType ⟨"application/pdf", "JVBERg=="⟩) = true :=
  parse_images_accepted "x"
    [⟨AttachmentType.file, some "application/pdf", "document.pdf",
      "JVBERg=="⟩] none
    ((⟨"x", [⟨"application/pdf", "JVBERg=="⟩]⟩ : ParseResult),
      ([] : List String)) rfl
    ⟨"application/pdf", "JVBERg=="⟩ (by simp)

/-- C8: the decode path never mutates the text — whenever a decode call
succeeds, the returned message equals the input text exactly, however many
attachments were kept or dropped. -/
theorem parse_preserves_message (text : String) (atts : List ChatAttachment)
    (mb : Option Nat) (r : ParseResult × List String)
    (h : parseMessageWithAttachments text atts mb = Except.ok r) :
    r.1.message = text := by
  unfold parseMessageWithAttachments at h
  cases hp : processAttachments (mb.getD defaultMaxBytes) atts with
  | error e => rw [hp] at h; simp at h
  | ok p =>
    obtain ⟨imgs, warns⟩ := p
    rw [hp] at h
    dsimp only at h
    simp only [Except.ok.injEq] at h
    rw [← h]

theorem parse_preserves_message_witness :
    (((⟨"hello", []⟩ : ParseResult), ([] : List String)) :
      ParseResult × List String).1.message = "hello" :=
  parse_preserves_message "hello" [] none
    ((⟨"hello", []⟩ : ParseResult), ([] : List String)) rfl

/-- C9: the type tag of an attachment has no effect on the decode path —
replacing every attachment tag by any reassignment whatsoever leaves the
whole result of the decode call unchanged, so acceptance depends only on
the content bytes and the declared or header-derived mime type. -/
theorem parse_type_tag_irrelevant (text : String)
    (atts : List ChatAttachment) (mb : Option Nat)
    (f : ChatAttachment → AttachmentType) :
    parseMessageWithAttachments text (atts.map (fun a => withType (f a) a))
      mb = parseMessageWithAttachments text atts mb := by
  unfold parseMessageWithAttachments
  rw [processAttachments_withType]

/-- C10: the marker the encode path appends for each attachment is the
markdown image syntax, so the output contains the literal substring
![<fileName>] for every attachment. -/
theorem build_marker_references_fileName (text : String)
    (atts : List ChatAttachment) (mb : Option Nat)
    (h : ∀ a ∈ atts, buildOk a (mb.getD defaultMaxBytes)) :
    ∃ out, buildMessageWithAttachments text atts mb = Except.ok out ∧
      ∀ a ∈ atts, strContains out ("![" ++ a.fileName ++ "]") := by
  refine ⟨text ++ concatMarkers atts, ?_, ?_⟩
  · unfold buildMessageWithAttachments
    exact buildGo_ok _ _ h text
  · intro a ha
    exact strContains_append_left _ _ _
      (strContains_concatMarkers atts a _ ha
        (attachmentMarker_contains_bang a))

theorem build_marker_references_fileName_witness :
    ∃ out, buildMessageWithAttachments "see this"
      [⟨AttachmentType.image, some "image/png", "dot.png", "iVBORw=="⟩]
      none = Except.ok out ∧
      ∀ a ∈ [(⟨AttachmentType.image, some "image/png", "dot.png",
          "iVBORw=="⟩ : ChatAttachment)],
        strContains out ("![" ++ a.fileName ++ "]") :=
  build_marker_references_fileName "see this"
    [⟨AttachmentType.image, some "image/png", "dot.png", "iVBORw=="⟩]
    none (by decide)
